import Mathlib

/-!
Shallow embedding of `scripts/process_and_rename_images.py`: the timestamp
resolution and deterministic rename-planning engine.  Pure functions of the
script become Lean functions; the filesystem and the external `exiftool`
collaborator become an explicit environment record; Python exceptions become
an `Except` monad.  The theorems at the end settle the specification claims.
-/

namespace ImageCompare

/-- Characters Python's `str.strip()` and the regex class `\s` treat as
whitespace (ASCII portion). -/
def isPySpace (c : Char) : Bool :=
  c = ' ' || c = '\t' || c = '\n' || c = '\r' || c = '\x0b' || c = '\x0c'

/-- Model of Python `str.strip()`: removes leading and trailing whitespace. -/
def stripStr (s : String) : String :=
  String.mk (((s.data.dropWhile isPySpace).reverse.dropWhile isPySpace).reverse)

/-- Fuel-based decimal digit list of a natural number (most significant
first), the digits Python prints for a nonnegative int. -/
def natReprAux : Nat → Nat → List Char
  | 0, _ => []
  | fuel + 1, n =>
    if n < 10 then [Nat.digitChar n]
    else natReprAux fuel (n / 10) ++ [Nat.digitChar (n % 10)]

/-- Decimal string representation of a natural number. -/
def natRepr (n : Nat) : String := String.mk (natReprAux (n + 1) n)

/-- Zero-pad a natural number to a given width, as Python `f"{n:0Nd}"` does
for nonnegative inputs. -/
def padNum (width n : Nat) : String :=
  let s := natRepr n
  if s.length < width then String.mk (List.replicate (width - s.length) '0') ++ s
  else s

/-- Model of the f-string `f"-{current_count:02d}"` suffix digits. -/
def pad2 (n : Nat) : String := padNum 2 n

/-- Decimal digit test for the regex class `[0-9]`. -/
def isDigitChar (c : Char) : Bool := '0' ≤ c && c ≤ '9'

/-- ASCII letter test for the regex class `[a-zA-Z]`. -/
def isAsciiLetter (c : Char) : Bool := ('a' ≤ c && c ≤ 'z') || ('A' ≤ c && c ≤ 'Z')

/-- Numeric value of a list of decimal digits. -/
def digitsVal (l : List Char) : Nat :=
  l.foldl (fun acc c => acc * 10 + (c.toNat - '0'.toNat)) 0

/-- Model of Python `int(s)` on a string: surrounding whitespace allowed, an
optional sign, then decimal digits; `none` models the `ValueError` raised on
anything else. -/
def parsePyInt (s : String) : Option Int :=
  let t := (stripStr s).data
  match t with
  | '-' :: ds => if ds ≠ [] && ds.all isDigitChar then some (-(digitsVal ds : Int)) else none
  | '+' :: ds => if ds ≠ [] && ds.all isDigitChar then some ((digitsVal ds : Int)) else none
  | ds => if ds ≠ [] && ds.all isDigitChar then some ((digitsVal ds : Int)) else none

/-- Proleptic-Gregorian civil date from a count of days since 1970-01-01
(standard era-based conversion), used to model `datetime.fromtimestamp`. -/
def civilFromDays (z : Int) : Int × Nat × Nat :=
  let zz := z + 719468
  let era := zz / 146097
  let doe := (zz % 146097).toNat
  let yoe := (doe - doe / 1460 + doe / 36524 - doe / 146096) / 365
  let doy := doe - (365 * yoe + yoe / 4 - yoe / 100)
  let mp := (5 * doy + 2) / 153
  let d := doy - (153 * mp + 2) / 5 + 1
  let m := if mp < 10 then mp + 3 else mp - 9
  (era * 400 + (yoe : Int) + (if m ≤ 2 then 1 else 0), m, d)

/-- Model of `datetime.fromtimestamp(n).strftime('%Y%m%d-%H%M%S')`, taking the
local timezone to be UTC (the spec performs no timezone conversion beyond what
the source encodes). -/
def epochFormat (n : Int) : String :=
  let days := n / 86400
  let secs := (n % 86400).toNat
  let c := civilFromDays days
  padNum 4 c.1.toNat ++ padNum 2 c.2.1 ++ padNum 2 c.2.2 ++ "-" ++
    padNum 2 (secs / 3600) ++ padNum 2 (secs % 3600 / 60) ++ padNum 2 (secs % 60)

/-- Model of `os.path.splitext(p)[1]`: the extension of the final path
component, where the leading dots of the component never start an extension. -/
def splitextExt (p : String) : String :=
  let base := (p.data.reverse.takeWhile (fun c => c ≠ '/')).reverse
  let rest := base.dropWhile (fun c => c = '.')
  if rest.any (fun c => c = '.') then
    String.mk ('.' :: (rest.reverse.takeWhile (fun c => c ≠ '.')).reverse)
  else ""

/-- Model of `os.path.dirname(p)` (posix): everything before the last slash,
with trailing slashes stripped unless the result is all slashes. -/
def dirname (p : String) : String :=
  let l := p.data
  if l.any (fun c => c = '/') then
    let head := (l.reverse.dropWhile (fun c => c ≠ '/')).reverse
    if head.all (fun c => c = '/') then String.mk head
    else String.mk ((head.reverse.dropWhile (fun c => c = '/')).reverse)
  else ""

/-- One step of posix `os.path.join`: an absolute component resets the path
(`b.startswith('/')` and `path.endswith('/')` are tested on the character
lists). -/
def joinOne (path b : String) : String :=
  if b.data.head? == some '/' then b
  else if path = "" || (path.data.getLast? == some '/') then path ++ b
  else path ++ "/" ++ b

/-- Model of `os.path.join(a, b, c)`. -/
def join3 (a b c : String) : String := joinOne (joinOne a b) c

/-- Model of the body of `format_exif_datetime` on a truthy string:
`dt_string.replace(':', '').replace(' ', '-', 1)` — first drop every colon,
then turn the first space into a dash. -/
def replaceFirstSpace : List Char → List Char
  | [] => []
  | c :: cs => if c = ' ' then '-' :: cs else c :: replaceFirstSpace cs

/-- Model of `format_exif_datetime(dt_string)` for string input (the truthy
case; see `format_exif_datetimeOpt` for the `if not dt_string` guard). -/
def format_exif_datetime (s : String) : String :=
  String.mk (replaceFirstSpace (s.data.filter (fun c => c ≠ ':')))

/-- Model of `format_exif_datetime` on an optional/possibly-empty input:
falsy input (`None` or the empty string) returns `None`. -/
def format_exif_datetimeOpt : Option String → Option String
  | none => none
  | some s => if s = "" then none else some (format_exif_datetime s)

/-- Attempt to match the tail `\([0-9]+\)\.[a-zA-Z]*` of the regex in
`find_json_file` at the head of a character list, returning the parenthesized
number literal and the dot-extension; digits and letters are consumed
greedily, exactly as the regex engine does. -/
def parenSuffixAt : List Char → Option (String × String)
  | '(' :: rest =>
    let ds := rest.takeWhile isDigitChar
    if ds.isEmpty then none else
    match rest.drop ds.length with
    | ')' :: '.' :: rest2 =>
      let ls := rest2.takeWhile isAsciiLetter
      some (String.mk ('(' :: (ds ++ [')'])), String.mk ('.' :: ls))
    | _ => none
  | _ => none

/-- Model of `re.match(r'(.*)(\([0-9]+\))(\.[a-zA-Z]*)', image_path)`: the
greedy `(.*)` group is the longest prefix after which the rest of the pattern
matches; returns the three groups. -/
def parenSplit (s : List Char) : Option (String × String × String) :=
  ((List.range (s.length + 1)).reverse).findSome? (fun k =>
    (parenSuffixAt (s.drop k)).map (fun ne => (String.mk (s.take k), ne.1, ne.2)))

/-- The `metadata_name` candidate string and relocated numeric suffix built at
the top of `find_json_file`. -/
def metadataNameNum (image_path : String) : String × Option String :=
  match parenSplit image_path.data with
  | some (filename, num, ext) => (filename ++ ext ++ ".supplemental-metadata", some num)
  | none => (image_path ++ ".supplemental-metadata", none)

/-- The probe string `f"{substring}{num}.json"` for a prefix of the candidate
of the given length. -/
def probeString (mn : String) (num : Option String) (i : Nat) : String :=
  String.mk (mn.data.take i) ++ (match num with | some n => n | none => "") ++ ".json"

/-- The probing loop `for i in range(len(metadata_name), 10, -1)` of
`find_json_file`: try prefix lengths from `i` down to 11, returning the first
existing probe. -/
def probeFrom (fsExists : String → Bool) (mn : String) (num : Option String) :
    Nat → Option String
  | 0 => none
  | i + 1 =>
    if i + 1 ≤ 10 then none
    else
      let candidate := probeString mn num (i + 1)
      if fsExists candidate then some candidate else probeFrom fsExists mn num i

/-- Model of `find_json_file(image_path)`; the filesystem's `os.path.exists`
is the injected `fsExists`. -/
def find_json_file (fsExists : String → Bool) (image_path : String) : Option String :=
  let mn := (metadataNameNum image_path).1
  probeFrom fsExists mn (metadataNameNum image_path).2 mn.data.length

/-- Python exception kinds that can arise in `get_json_datetime`. -/
inductive PyErr where
  | attributeError
  | typeError
  | jsonError
  | keyError
  | valueError
deriving DecidableEq, Repr

/-- Values produced by `json.load`. -/
inductive Json where
  | null
  | bool (b : Bool)
  | num (n : Int)
  | str (s : String)
  | arr (l : List Json)
  | obj (l : List (String × Json))

/-- Model of `d.get(k, dflt)`: only a dict has `.get`; anything else raises
`AttributeError`. -/
def pyGetDefault (j : Json) (k : String) (dflt : Json) : Except PyErr Json :=
  match j with
  | .obj l => .ok ((l.lookup k).getD dflt)
  | _ => .error .attributeError

/-- Model of `d.get(k)` returning Python `None` when the key is missing. -/
def pyGetOpt (j : Json) (k : String) : Except PyErr (Option Json) :=
  match j with
  | .obj l => .ok (l.lookup k)
  | _ => .error .attributeError

/-- Python truthiness of a JSON-derived value. -/
def pyTruthy : Json → Bool
  | .null => false
  | .bool b => b
  | .num n => n != 0
  | .str s => s != ""
  | .arr l => !l.isEmpty
  | .obj l => !l.isEmpty

/-- Model of the builtin `int(x)` on a JSON-derived value: strings are parsed
(`ValueError` on failure), numbers and bools convert, anything else raises
`TypeError`. -/
def pyInt : Json → Except PyErr Int
  | .str s => match parsePyInt s with | some n => .ok n | none => .error .valueError
  | .num n => .ok n
  | .bool b => .ok (if b then 1 else 0)
  | _ => .error .typeError

/-- Body of the `try` block of `get_json_datetime`: `parsed` is the result of
`json.load` (`.error` models `JSONDecodeError`). -/
def get_json_datetime_body (parsed : Except Unit Json) : Except PyErr (Option String) :=
  match parsed with
  | .error _ => .error PyErr.jsonError
  | .ok data =>
    match pyGetDefault data "photoTakenTime" (Json.obj []) with
    | .error e => .error e
    | .ok ptt =>
      match pyGetOpt ptt "timestamp" with
      | .error e => .error e
      | .ok none => .ok none
      | .ok (some ts) =>
        if pyTruthy ts then
          match pyInt ts with
          | .error e => .error e
          | .ok n => .ok (some (epochFormat n))
        else .ok none

/-- The exception kinds named by the handler
`except (json.JSONDecodeError, KeyError, ValueError)`. -/
def caughtByJsonHandler : PyErr → Bool
  | .jsonError => true
  | .keyError => true
  | .valueError => true
  | _ => false

/-- Model of `get_json_datetime(json_filepath)`: the listed exceptions are
downgraded to `None`; every other exception propagates. -/
def get_json_datetime (parsed : Except Unit Json) : Except PyErr (Option String) :=
  match get_json_datetime_body parsed with
  | .ok v => .ok v
  | .error e => if caughtByJsonHandler e then .ok none else .error e

/-- The character class `[\w\d_\\]` that the doubled-backslash raw string in
`get_video_exif_datetime` actually denotes: backslash, `w`, `d`, underscore. -/
def isC1 (c : Char) : Bool := c = '\\' || c = 'w' || c = 'd' || c = '_'

/-- Match the pattern remainder `\s+([\w\d_\\]+)\s+:\s+(.*)` at the head of
the list, returning the two groups. -/
def matchAfterMarker (rest : List Char) : Option (String × String) :=
  let ws1 := rest.takeWhile isPySpace
  if ws1.isEmpty then none else
  let r1 := rest.drop ws1.length
  let g1 := r1.takeWhile isC1
  if g1.isEmpty then none else
  let r2 := r1.drop g1.length
  let ws2 := r2.takeWhile isPySpace
  if ws2.isEmpty then none else
  match r2.drop ws2.length with
  | ':' :: r3 =>
    let ws3 := r3.takeWhile isPySpace
    if ws3.isEmpty then none else
    some (String.mk g1, String.mk (r3.drop ws3.length))
  | _ => none

/-- Backtracking over how many characters the leading `[\w\d_\\]+` consumes
before the literal backslash (greedy: longest first).  `j + 1` is the number
of characters the class consumes; the literal backslash must sit right after
them. -/
def tryConsume (rest : List Char) : Nat → Option (String × String)
  | 0 => none
  | j + 1 =>
    match (if rest[j + 1]? == some '\\' then matchAfterMarker (rest.drop (j + 2)) else none) with
    | some v => some v
    | none => tryConsume rest j

/-- Model of `re.match(r'\\[\\w\\d_\\]+\\\s+([\\w\\d_]+)\s+:\s+(.*)', line)`:
because every `\\` in the raw string is an escaped backslash, the pattern is a
literal backslash, then the class `[\w\d_\\]+`, then a literal backslash,
whitespace, the tag-name group over the same class, whitespace, a colon,
whitespace, and the value group. -/
def lineMatch (line : List Char) : Option (String × String) :=
  match line with
  | '\\' :: rest => tryConsume rest (rest.takeWhile isC1).length
  | _ => none

/-- The literal prefix that `re.match(r'\\d{4}:\\d{2}:\\d{2} ...', v)`
actually requires: each `\\d{n}` is a literal backslash followed by `n`
letters `d`. -/
def videoDateLiteral : String := "\\dddd:\\dd:\\dd \\dd:\\dd:\\dd"

/-- The `found_tags` association built by the line loop of
`get_video_exif_datetime` (insertion order; duplicates keep the later value
via `lookupTag`). -/
def foundTags (lines : List String) : List (String × String) :=
  lines.filterMap (fun l =>
    match lineMatch l.data with
    | some nv =>
      let v := stripStr nv.2
      if List.isPrefixOf videoDateLiteral.data v.data then some (nv.1, v) else none
    | none => none)

/-- Dict lookup in `found_tags` (later assignments overwrite earlier ones). -/
def lookupTag (found : List (String × String)) (tag : String) : Option String :=
  ((found.reverse).find? (fun p => p.1 == tag)).map (fun p => p.2)

/-- Model of `get_video_exif_datetime(filepath)`: `output` is the stripped,
line-split stdout of exiftool, or `none` when the exit code was nonzero. -/
def get_video_exif_datetime (output : Option (List String)) : Option String :=
  match output with
  | none => none
  | some lines =>
    let found := foundTags lines
    match lookupTag found "DateTimeOriginal" with
    | some v => some v
    | none =>
      match lookupTag found "CreateDate" with
      | some v => some v
      | none =>
        match lookupTag found "MediaCreateDate" with
        | some v => some v
        | none => lookupTag found "TrackCreateDate"

/-- Environment of one planning run: the injected exiftool reader (already
specialised to images or videos), the filesystem existence test, and the
parsed content of each JSON file (`.error` models a `json.JSONDecodeError`). -/
structure Env where
  exifTag : String → Option String
  fsExists : String → Bool
  jsonContent : String → Except Unit Json

/-- Python truthiness of the `timestamp` variable (`None` or a string). -/
def truthyOpt : Option String → Bool
  | none => false
  | some s => s != ""

/-- Per-file resolution round of the first pass (lines 166-180 of the
script): exiftool first, then the sidecar; the stored pair is
`potential_renames[filepath]`. -/
def resolveFile (env : Env) (fp : String) : Except PyErr (Option String × Option String) :=
  let t0 : Option String :=
    match env.exifTag fp with
    | some s => if s = "" then none else some (format_exif_datetime s)
    | none => none
  let json_path := find_json_file env.fsExists fp
  let step : Except PyErr (Option String) :=
    if truthyOpt t0 then .ok t0
    else
      match json_path with
      | some jp => get_json_datetime (env.jsonContent jp)
      | none => .ok t0
  match step with
  | .error e => .error e
  | .ok t1 => if truthyOpt t1 then .ok (t1, json_path) else .ok (none, none)

/-- One resolved record: the file path, its timestamp (if any) and its
sidecar path (if any). -/
abbrev Resolved := String × Option String × Option String

/-- Pass 1: resolve every file in order, aborting the batch on the first
uncaught exception (as the Python loop does). -/
def pass1 (env : Env) : List String → Except PyErr (List Resolved)
  | [] => .ok []
  | fp :: rest =>
    match resolveFile env fp with
    | .error e => .error e
    | .ok r =>
      match pass1 env rest with
      | .error e => .error e
      | .ok rs => .ok ((fp, r.1, r.2) :: rs)

/-- The `timestamp_counts` tally of pass 1: how many files resolved to the
given canonical timestamp. -/
def tally (rs : List Resolved) (t : String) : Nat :=
  (rs.filter (fun r => r.2.1 == some t)).length

/-- PlanEntry data model: `move` carries the sidecar source alongside the
media move; the destination strings are derived from these fields by
`emitEntry` exactly as the script builds them. -/
inductive PlanEntry where
  | move (src base jsonSrc : String)
  | moveNoSidecar (src base : String)
  | unresolved (src : String)
deriving DecidableEq, Repr

/-- Entry constructor for a resolved file, choosing the variant by the
presence of a sidecar path. -/
def mkResolvedEntry (fp base : String) : Option String → PlanEntry
  | some jp => .move fp base jp
  | none => .moveNoSidecar fp base

/-- Increment of one key of the `processed_timestamps` counter map. -/
def bump (f : String → Nat) (t : String) : String → Nat :=
  fun x => if x = t then f x + 1 else f x

/-- Pass 2 (lines 182-211): walk the resolved records in order, threading the
`processed_timestamps` counters, and build one plan entry per record. -/
def pass2 (counts : String → Nat) : List Resolved → (String → Nat) → List PlanEntry
  | [], _ => []
  | (fp, some t, jp) :: rest, processed =>
    let current := processed t
    let suffix := if counts t > 1 then "-" ++ pad2 current else ""
    mkResolvedEntry fp (t ++ suffix) jp :: pass2 counts rest (bump processed t)
  | (fp, none, _) :: rest, processed =>
    PlanEntry.unresolved fp :: pass2 counts rest processed

/-- The fixed processing order: `sorted(all_files)` (lexicographic by code
point, as Python string comparison is). -/
def sortedFiles (files : List String) : List String :=
  files.mergeSort (fun a b => decide (a ≤ b))

/-- Model of `process(directory)`: `files` is the file set discovered by the
walk, in whatever order the filesystem enumerated it. -/
def process (env : Env) (files : List String) : Except PyErr (List PlanEntry) :=
  match pass1 env (sortedFiles files) with
  | .error e => .error e
  | .ok rs => .ok (pass2 (tally rs) rs (fun _ => 0))

/-- Serialization of one plan entry into the lines the script appends to
`ALL_YEARS.sh`. -/
def emitEntry : PlanEntry → List String
  | .move src base jsonSrc =>
    ["mv \"" ++ src ++ "\" \"" ++ join3 "done" (dirname src) (base ++ splitextExt src) ++ "\"",
     "mv \"" ++ jsonSrc ++ "\" \"" ++ join3 "done" (dirname src) (base ++ ".json") ++ "\""]
  | .moveNoSidecar src base =>
    ["mv \"" ++ src ++ "\" \"" ++ join3 "done" (dirname src) (base ++ splitextExt src) ++ "\"",
     "# No json file for " ++ src]
  | .unresolved src =>
    ["# No timestamp information available for " ++ src]

/-- All lines a plan writes, in order. -/
def emitLines (p : List PlanEntry) : List String := (p.map emitEntry).flatten

/-- The byte content appended to the plan artifact by one run (empty when the
run aborted before pass 2, since nothing is written during pass 1). -/
def scriptOutput (r : Except PyErr (List PlanEntry)) : String :=
  match r with
  | .ok p => String.join ((emitLines p).map (fun l => l ++ "\n"))
  | .error _ => ""

/-- Source path of a plan entry. -/
def PlanEntry.src : PlanEntry → String
  | .move s _ _ => s
  | .moveNoSidecar s _ => s
  | .unresolved s => s

/-- Destination base name of a plan entry (`none` for unresolved entries). -/
def PlanEntry.baseOf : PlanEntry → Option String
  | .move _ b _ => some b
  | .moveNoSidecar _ b => some b
  | .unresolved _ => none

/-- Whether an entry is the unresolved (comment-only) variant. -/
def PlanEntry.isUnresolved : PlanEntry → Bool
  | .unresolved _ => true
  | _ => false

/-- Canonical timestamp shape `YYYYMMDD-HHMMSS`: eight digits, a dash, six
digits (spec-side predicate used as a hypothesis). -/
def canonicalTs (t : String) : Bool :=
  t.data.length == 15 && (t.data.take 8).all isDigitChar &&
    (t.data[8]? == some '-') && (t.data.drop 9).all isDigitChar

/-- Number of records in a list that resolved to timestamp `t`. -/
def occIn (pre : List Resolved) (t : String) : Nat :=
  (pre.filter (fun r => r.2.1 == some t)).length

/-- The entry pass 2 builds for one record, given the full-run tallies, the
counters accumulated so far, and the records already walked. -/
def entrySpec (counts processed : String → Nat) (pre : List Resolved) (r : Resolved) :
    PlanEntry :=
  match r.2.1 with
  | some t =>
    mkResolvedEntry r.1
      (t ++ (if counts t > 1 then "-" ++ pad2 (processed t + occIn pre t) else "")) r.2.2
  | none => .unresolved r.1

theorem occIn_cons (r : Resolved) (pre : List Resolved) (t : String) :
    occIn (r :: pre) t = (if r.2.1 == some t then 1 else 0) + occIn pre t := by
  simp only [occIn, List.filter_cons]
  split <;> simp [Nat.add_comm]

theorem entrySpec_bump (counts processed : String → Nat) (pre : List Resolved)
    (fp t0 : String) (jp : Option String) (r : Resolved) :
    entrySpec counts (bump processed t0) pre r =
      entrySpec counts processed ((fp, some t0, jp) :: pre) r := by
  obtain ⟨fp', t', jp'⟩ := r
  match t' with
  | none => rfl
  | some t =>
    have hA : bump processed t0 t + occIn pre t =
        processed t + occIn ((fp, some t0, jp) :: pre) t := by
      rw [occIn_cons]
      by_cases ht : t = t0
      · subst ht
        have h1 : bump processed t t = processed t + 1 := by simp [bump]
        have h2 : ((some t : Option String) == some t) = true := by simp
        rw [h1, h2]
        simp only [if_true]
        omega
      · have h1 : bump processed t0 t = processed t := by simp [bump, ht]
        have h2 : ((some t0 : Option String) == some t) = false := by
          rw [beq_eq_false_iff_ne]
          exact fun h => ht (Option.some.inj h).symm
        rw [h1, h2]
        simp only [Bool.false_eq_true, if_false]
        omega
    simp only [entrySpec]
    rw [hA]

theorem entrySpec_skip (counts processed : String → Nat) (pre : List Resolved)
    (fp : String) (jp : Option String) (r : Resolved) :
    entrySpec counts processed pre r =
      entrySpec counts processed ((fp, none, jp) :: pre) r := by
  obtain ⟨fp', t', jp'⟩ := r
  match t' with
  | none => rfl
  | some t =>
    have hA : occIn pre t = occIn ((fp, none, jp) :: pre) t := by
      rw [occIn_cons]; simp
    simp only [entrySpec]
    rw [hA]

/-- Positional characterization of pass 2: the `i`-th plan entry is built
from the `i`-th record, with the counter equal to the accumulated count plus
the number of earlier records sharing the timestamp. -/
theorem pass2_getElem (rs : List Resolved) :
    ∀ (counts processed : String → Nat) (i : Nat),
      (pass2 counts rs processed)[i]? =
        (rs[i]?).map (entrySpec counts processed (rs.take i)) := by
  induction rs with
  | nil => intro counts processed i; simp [pass2]
  | cons r rest ih =>
    intro counts processed i
    obtain ⟨fp, t, jp⟩ := r
    match t with
    | some t0 =>
      match i with
      | 0 => simp [pass2, entrySpec, occIn]
      | i + 1 =>
        simp only [pass2, List.getElem?_cons_succ, List.take_succ_cons, ih]
        cases h : rest[i]? with
        | none => rfl
        | some r' => simpa using entrySpec_bump counts processed (List.take i rest) fp t0 jp r'
    | none =>
      match i with
      | 0 => simp [pass2, entrySpec, occIn]
      | i + 1 =>
        simp only [pass2, List.getElem?_cons_succ, List.take_succ_cons, ih]
        cases h : rest[i]? with
        | none => rfl
        | some r' => simpa using entrySpec_skip counts processed (List.take i rest) fp jp r'

theorem pass2_length (rs : List Resolved) :
    ∀ (counts processed : String → Nat), (pass2 counts rs processed).length = rs.length := by
  induction rs with
  | nil => intro counts processed; rfl
  | cons r rest ih =>
    intro counts processed
    obtain ⟨fp, t, jp⟩ := r
    match t with
    | some t0 => simp [pass2, ih]
    | none => simp [pass2, ih]

theorem pass1_ok_length (env : Env) :
    ∀ (fs : List String) (rs : List Resolved), pass1 env fs = .ok rs → rs.length = fs.length := by
  intro fs
  induction fs with
  | nil => intro rs h; cases h; rfl
  | cons fp rest ih =>
    intro rs h
    unfold pass1 at h
    cases h1 : resolveFile env fp with
    | error e => rw [h1] at h; cases h
    | ok r =>
      rw [h1] at h
      cases h2 : pass1 env rest with
      | error e => rw [h2] at h; cases h
      | ok rs' =>
        rw [h2] at h
        cases h
        simp [ih rs' h2]

theorem pass1_ok_get (env : Env) :
    ∀ (fs : List String) (rs : List Resolved), pass1 env fs = .ok rs →
      ∀ (i : Nat) (fp : String), fs[i]? = some fp →
        ∃ t jp, resolveFile env fp = .ok (t, jp) ∧ rs[i]? = some (fp, t, jp) := by
  intro fs
  induction fs with
  | nil => intro rs h i fp hf; simp at hf
  | cons fp0 rest ih =>
    intro rs h i fp hf
    unfold pass1 at h
    cases h1 : resolveFile env fp0 with
    | error e => rw [h1] at h; cases h
    | ok r =>
      rw [h1] at h
      cases h2 : pass1 env rest with
      | error e => rw [h2] at h; cases h
      | ok rs' =>
        rw [h2] at h
        cases h
        match i with
        | 0 =>
          simp only [List.getElem?_cons_zero, Option.some.injEq] at hf
          subst hf
          exact ⟨r.1, r.2, h1, by simp⟩
        | i + 1 =>
          simp only [List.getElem?_cons_succ] at hf ⊢
          exact ih rs' h2 i fp hf

theorem mkResolvedEntry_src (fp b : String) (jp : Option String) :
    (mkResolvedEntry fp b jp).src = fp := by
  cases jp <;> rfl

theorem mkResolvedEntry_not_unresolved (fp b : String) (jp : Option String) :
    (mkResolvedEntry fp b jp).isUnresolved = false := by
  cases jp <;> rfl

theorem mkResolvedEntry_baseOf (fp b : String) (jp : Option String) :
    (mkResolvedEntry fp b jp).baseOf = some b := by
  cases jp <;> rfl

theorem process_ok (env : Env) (files : List String) (plan : List PlanEntry)
    (h : process env files = .ok plan) :
    ∃ rs, pass1 env (sortedFiles files) = .ok rs ∧
      plan = pass2 (tally rs) rs (fun _ => 0) := by
  unfold process at h
  cases h1 : pass1 env (sortedFiles files) with
  | error e => rw [h1] at h; cases h
  | ok rs => rw [h1] at h; cases h; exact ⟨rs, rfl, rfl⟩

theorem sortedFiles_length (files : List String) :
    (sortedFiles files).length = files.length :=
  List.length_mergeSort files

/-- C2 (amended): for every input file set whose planning run completes
(no uncaught per-file exception aborts pass 1), each discovered MediaFile
produces exactly one plan entry — the plan has exactly as many entries as
there are input files, the `i`-th entry names the `i`-th file (in the fixed
processing order), and it is the `Unresolved` variant precisely when that
file's timestamp did not resolve.  The unconditional claim is refuted by
`C2_totality_counterexample`. -/
theorem C2_totality (env : Env) (files : List String) (plan : List PlanEntry)
    (h : process env files = .ok plan) :
    plan.length = files.length ∧
    ∀ (i : Nat) (fp : String), (sortedFiles files)[i]? = some fp →
      ∃ (t jp : Option String) (e : PlanEntry),
        resolveFile env fp = .ok (t, jp) ∧ plan[i]? = some e ∧
        e.src = fp ∧ (e.isUnresolved = true ↔ t = none) := by
  obtain ⟨rs, h1, h2⟩ := process_ok env files plan h
  constructor
  · rw [h2, pass2_length rs, pass1_ok_length env _ rs h1, sortedFiles_length]
  · intro i fp hf
    obtain ⟨t, jp, hres, hget⟩ := pass1_ok_get env (sortedFiles files) rs h1 i fp hf
    have hplan : plan[i]? = some (entrySpec (tally rs) (fun _ => 0) (rs.take i) (fp, t, jp)) := by
      rw [h2, pass2_getElem rs (tally rs) (fun _ => 0) i, hget]; rfl
    have hsrc : (entrySpec (tally rs) (fun _ => 0) (rs.take i) (fp, t, jp)).src = fp := by
      match t with
      | some t0 => simp [entrySpec, mkResolvedEntry_src]
      | none => rfl
    have hunres : ((entrySpec (tally rs) (fun _ => 0) (rs.take i) (fp, t, jp)).isUnresolved = true
        ↔ t = none) := by
      match t with
      | some t0 => simp [entrySpec, mkResolvedEntry_not_unresolved]
      | none => simp [entrySpec, PlanEntry.isUnresolved]
    exact ⟨t, jp, _, hres, hplan, hsrc, hunres⟩

/-- Environment used by concrete witnesses: `a.jpg` carries a primary tag,
`b.jpg` resolves nothing, no sidecars exist. -/
def envTwo : Env where
  exifTag := fun fp => if fp = "a.jpg" then some "2023:01:01 12:00:00" else none
  fsExists := fun _ => false
  jsonContent := fun _ => .error ()

/-- Plan produced by `envTwo` on `["b.jpg", "a.jpg"]`. -/
def planTwo : List PlanEntry :=
  [.moveNoSidecar "a.jpg" "20230101-120000", .unresolved "b.jpg"]

theorem process_envTwo : process envTwo ["b.jpg", "a.jpg"] = .ok planTwo := by
  have hs : sortedFiles ["b.jpg", "a.jpg"] = ["a.jpg", "b.jpg"] := by
    simp +decide [sortedFiles, List.mergeSort, List.merge]
  unfold process
  rw [hs]
  rfl

theorem C2_totality_witness :
    planTwo.length = (["b.jpg", "a.jpg"] : List String).length :=
  (C2_totality envTwo ["b.jpg", "a.jpg"] planTwo process_envTwo).1

theorem digitsVal_snoc (l : List Char) (c : Char) :
    digitsVal (l ++ [c]) = digitsVal l * 10 + (c.toNat - '0'.toNat) := by
  simp [digitsVal, List.foldl_append]

theorem digitChar_val (m : Nat) (h : m < 10) :
    (Nat.digitChar m).toNat - '0'.toNat = m := by
  interval_cases m <;> rfl

theorem natReprAux_val (fuel : Nat) :
    ∀ n : Nat, n < 10 ^ fuel → digitsVal (natReprAux fuel n) = n := by
  induction fuel with
  | zero =>
    intro n h
    simp only [pow_zero, Nat.lt_one_iff] at h
    subst h
    rfl
  | succ fuel ih =>
    intro n h
    by_cases h10 : n < 10
    · have hv : digitsVal [Nat.digitChar n] = n := by
        show digitsVal ([] ++ [Nat.digitChar n]) = n
        rw [digitsVal_snoc]
        simpa [digitsVal] using digitChar_val n h10
      simp [natReprAux, h10, hv]
    · have hdiv : n / 10 < 10 ^ fuel := by
        rw [Nat.div_lt_iff_lt_mul (by norm_num)]
        calc n < 10 ^ (fuel + 1) := h
          _ = 10 ^ fuel * 10 := by ring
      simp only [natReprAux, h10, if_false]
      rw [digitsVal_snoc, ih (n / 10) hdiv, digitChar_val (n % 10) (Nat.mod_lt n (by norm_num))]
      omega

theorem natRepr_val (n : Nat) : digitsVal (natRepr n).data = n := by
  have h1 : n < 10 ^ n := Nat.lt_pow_self (by norm_num) n
  have h2 : (10 : Nat) ^ n ≤ 10 ^ (n + 1) := Nat.pow_le_pow_right (by norm_num) (Nat.le_succ n)
  exact natReprAux_val (n + 1) n (lt_of_lt_of_le h1 h2)

theorem digitsVal_cons_zero (l : List Char) : digitsVal ('0' :: l) = digitsVal l := rfl

theorem digitsVal_zeros (k : Nat) (l : List Char) :
    digitsVal (List.replicate k '0' ++ l) = digitsVal l := by
  induction k with
  | zero => rfl
  | succ k ih => rw [List.replicate_succ, List.cons_append, digitsVal_cons_zero, ih]

theorem pad2_eq_of_lt (n : Nat) (hlen : (natRepr n).length < 2) :
    pad2 n = String.mk (List.replicate (2 - (natRepr n).length) '0') ++ natRepr n := by
  unfold pad2 padNum
  simp [hlen]

theorem pad2_eq_of_ge (n : Nat) (hlen : ¬ (natRepr n).length < 2) : pad2 n = natRepr n := by
  unfold pad2 padNum
  simp [hlen]

theorem pad2_val (n : Nat) : digitsVal (pad2 n).data = n := by
  by_cases hlen : (natRepr n).length < 2
  · rw [pad2_eq_of_lt n hlen, String.data_append]
    show digitsVal (List.replicate _ '0' ++ (natRepr n).data) = n
    rw [digitsVal_zeros, natRepr_val]
  · rw [pad2_eq_of_ge n hlen]
    exact natRepr_val n

theorem pad2_inj (m n : Nat) (h : pad2 m = pad2 n) : m = n := by
  have hv := congrArg (fun s => digitsVal s.data) h
  simpa [pad2_val] using hv

theorem pad2_length (n : Nat) : 2 ≤ (pad2 n).data.length := by
  have hdl : (natRepr n).length = (natRepr n).data.length := rfl
  by_cases hlen : (natRepr n).length < 2
  · rw [pad2_eq_of_lt n hlen, String.data_append, List.length_append]
    show 2 ≤ (List.replicate (2 - (natRepr n).length) '0').length + (natRepr n).data.length
    rw [List.length_replicate]
    omega
  · rw [pad2_eq_of_ge n hlen]
    omega

theorem string_append_cancel_left (t a b : String) (h : t ++ a = t ++ b) : a = b := by
  have hd := congrArg String.data h
  rw [String.data_append, String.data_append] at hd
  exact String.ext (List.append_cancel_left hd)

theorem string_append_inj (t1 t2 a b : String) (hlen : t1.data.length = t2.data.length)
    (h : t1 ++ a = t2 ++ b) : t1 = t2 ∧ a = b := by
  have hd := congrArg String.data h
  rw [String.data_append, String.data_append] at hd
  obtain ⟨h1, h2⟩ := List.append_inj hd hlen
  exact ⟨String.ext h1, String.ext h2⟩

theorem canonicalTs_length (t : String) (h : canonicalTs t = true) :
    t.data.length = 15 := by
  unfold canonicalTs at h
  simp only [Bool.and_eq_true] at h
  simpa using h.1.1.1

theorem occIn_append (a b : List Resolved) (t : String) :
    occIn (a ++ b) t = occIn a t + occIn b t := by
  simp [occIn, List.filter_append]

theorem occIn_take_le (rs : List Resolved) (t : String) (n : Nat) :
    occIn (rs.take n) t ≤ occIn rs t := by
  conv_rhs => rw [← List.take_append_drop n rs]
  rw [occIn_append]
  omega

theorem occIn_take_succ_of_mem (rs : List Resolved) (i : Nat) (fp t : String)
    (jp : Option String) (h : rs[i]? = some (fp, some t, jp)) :
    occIn (rs.take (i + 1)) t = occIn (rs.take i) t + 1 := by
  rw [List.take_succ, h]
  rw [occIn_append]
  simp [occIn]

theorem occIn_take_mono (rs : List Resolved) (t : String) (i j : Nat) (hij : i ≤ j) :
    occIn (rs.take i) t ≤ occIn (rs.take j) t := by
  rw [show rs.take i = (rs.take j).take i by rw [List.take_take, Nat.min_eq_left hij]]
  exact occIn_take_le (rs.take j) t i

theorem pass1_ok_mem (env : Env) :
    ∀ (fs : List String) (rs : List Resolved), pass1 env fs = .ok rs →
      ∀ r ∈ rs, resolveFile env r.1 = .ok (r.2.1, r.2.2) := by
  intro fs
  induction fs with
  | nil => intro rs h r hr; cases h; cases hr
  | cons fp rest ih =>
    intro rs h r hr
    unfold pass1 at h
    cases h1 : resolveFile env fp with
    | error e => rw [h1] at h; cases h
    | ok v =>
      rw [h1] at h
      cases h2 : pass1 env rest with
      | error e => rw [h2] at h; cases h
      | ok rs' =>
        rw [h2] at h
        cases h
        rcases List.mem_cons.mp hr with h3 | h3
        · subst h3; exact h1
        · exact ih rs' h2 r h3

/-- Base-name characterization of a pass-2 plan: a present base name comes
from a resolved record and equals the timestamp plus the suffix dictated by
its tally and its rank among same-timestamp records. -/
theorem pass2_baseOf_spec (rs : List Resolved) (i : Nat) (b : String)
    (hb : ((pass2 (tally rs) rs (fun _ => 0))[i]?).bind PlanEntry.baseOf = some b) :
    ∃ (fp t : String) (jp : Option String), rs[i]? = some (fp, some t, jp) ∧
      b = t ++ (if tally rs t > 1 then "-" ++ pad2 (occIn (rs.take i) t) else "") := by
  rw [pass2_getElem] at hb
  cases hri : rs[i]? with
  | none => rw [hri] at hb; cases hb
  | some r =>
    rw [hri] at hb
    obtain ⟨fp, topt, jp⟩ := r
    match topt with
    | none => simp [entrySpec, PlanEntry.baseOf] at hb
    | some t =>
      refine ⟨fp, t, jp, rfl, ?_⟩
      simp only [Option.map_some', Option.some_bind, entrySpec, mkResolvedEntry_baseOf,
        Option.some.injEq] at hb
      rw [← hb]
      simp

/-- C1: within one planning run whose resolved timestamps are all canonical
`YYYYMMDD-HHMMSS` strings, the non-sidecar destination base names (bare
timestamps and suffixed timestamps) are pairwise distinct. -/
theorem C1_no_collision (env : Env) (files : List String) (plan : List PlanEntry)
    (h : process env files = .ok plan)
    (hcanon : ∀ (fp t : String) (jp : Option String),
      resolveFile env fp = .ok (some t, jp) → canonicalTs t = true)
    (i j : Nat) (hij : i < j) (b1 b2 : String)
    (hb1 : (plan[i]?).bind PlanEntry.baseOf = some b1)
    (hb2 : (plan[j]?).bind PlanEntry.baseOf = some b2) :
    b1 ≠ b2 := by
  obtain ⟨rs, h1, h2⟩ := process_ok env files plan h
  subst h2
  obtain ⟨fpi, ti, jpi, hri, hbi⟩ := pass2_baseOf_spec rs i b1 hb1
  obtain ⟨fpj, tj, jpj, hrj, hbj⟩ := pass2_baseOf_spec rs j b2 hb2
  have hmi : (fpi, some ti, jpi) ∈ rs := List.getElem?_mem hri
  have hmj : (fpj, some tj, jpj) ∈ rs := List.getElem?_mem hrj
  have hci := hcanon fpi ti jpi (pass1_ok_mem env _ rs h1 _ hmi)
  have hcj := hcanon fpj tj jpj (pass1_ok_mem env _ rs h1 _ hmj)
  have hli : ti.data.length = 15 := canonicalTs_length ti hci
  have hlj : tj.data.length = 15 := canonicalTs_length tj hcj
  intro heq
  rw [hbi, hbj] at heq
  by_cases htij : ti = tj
  · subst htij
    have e1 := occIn_take_succ_of_mem rs i fpi ti jpi hri
    have e2 := occIn_take_succ_of_mem rs j fpj ti jpj hrj
    have m12 : occIn (rs.take (i + 1)) ti ≤ occIn (rs.take j) ti :=
      occIn_take_mono rs ti (i + 1) j hij
    have mj : occIn (rs.take (j + 1)) ti ≤ occIn rs ti := occIn_take_le rs ti (j + 1)
    have htal : tally rs ti = occIn rs ti := rfl
    have hgt : tally rs ti > 1 := by omega
    rw [if_pos hgt, if_pos hgt] at heq
    have hsuf := string_append_cancel_left _ _ _ heq
    have hpad := string_append_cancel_left "-" _ _ hsuf
    have hc := pad2_inj _ _ hpad
    omega
  · have hone : (("" : String)).data.length = 0 := rfl
    have hdash : (("-" : String)).data.length = 1 := rfl
    by_cases g1 : tally rs ti > 1 <;> by_cases g2 : tally rs tj > 1
    · rw [if_pos g1, if_pos g2] at heq
      obtain ⟨hts, _⟩ := string_append_inj ti tj _ _ (by omega) heq
      exact htij hts
    · rw [if_pos g1, if_neg g2] at heq
      have hlen := congrArg (fun s => s.data.length) heq
      have hp := pad2_length (occIn (rs.take i) ti)
      have hd1 : (pad2 (occIn (rs.take i) ti)).length = (pad2 (occIn (rs.take i) ti)).data.length := rfl
      have hd2 : ti.length = ti.data.length := rfl
      have hd3 : tj.length = tj.data.length := rfl
      simp only [String.data_append, List.length_append] at hlen
      simp at hlen
      omega
    · rw [if_neg g1, if_pos g2] at heq
      have hlen := congrArg (fun s => s.data.length) heq
      have hp := pad2_length (occIn (rs.take j) tj)
      have hd1 : (pad2 (occIn (rs.take j) tj)).length = (pad2 (occIn (rs.take j) tj)).data.length := rfl
      have hd2 : ti.length = ti.data.length := rfl
      have hd3 : tj.length = tj.data.length := rfl
      simp only [String.data_append, List.length_append] at hlen
      simp at hlen
      omega
    · rw [if_neg g1, if_neg g2] at heq
      obtain ⟨hts, _⟩ := string_append_inj ti tj "" "" (by omega) heq
      exact htij hts

theorem probeFrom_false (mn : String) (num : Option String) :
    ∀ k, probeFrom (fun _ => false) mn num k = none := by
  intro k
  induction k with
  | zero => rfl
  | succ k ih => simp [probeFrom, ih]

theorem find_json_file_false (p : String) : find_json_file (fun _ => false) p = none := by
  unfold find_json_file
  exact probeFrom_false _ _ _

/-- Resolver outcome when the primary tag is absent and no sidecar exists. -/
theorem resolveFile_exif_none_json_none (env : Env) (fp : String)
    (he : env.exifTag fp = none) (hj : find_json_file env.fsExists fp = none) :
    resolveFile env fp = .ok (none, none) := by
  unfold resolveFile
  rw [he, hj]
  rfl

/-- Resolver outcome when the primary tag yields a usable (truthy, and truthy
after formatting) value: the formatted primary value is returned, whatever
any sidecar says. -/
theorem resolveFile_exif_some (env : Env) (fp s : String) (hs : ¬ s = "")
    (hf : ¬ format_exif_datetime s = "")
    (he : env.exifTag fp = some s) :
    resolveFile env fp = .ok (some (format_exif_datetime s), find_json_file env.fsExists fp) := by
  unfold resolveFile
  rw [he]
  simp [hs, truthyOpt, hf]

/-- Environment of the running example: `a.jpg`, `b.jpg`, `c.jpg` share one
primary timestamp, `u.jpg` has a unique one, nothing else resolves and no
sidecar exists. -/
def envABC : Env where
  exifTag := fun fp =>
    if fp = "a.jpg" ∨ fp = "b.jpg" ∨ fp = "c.jpg" then some "2023:01:01 12:00:00"
    else if fp = "u.jpg" then some "2024:05:06 07:08:09"
    else none
  fsExists := fun _ => false
  jsonContent := fun _ => .error ()

theorem envABC_canon (fp t : String) (jp : Option String)
    (h : resolveFile envABC fp = .ok (some t, jp)) : canonicalTs t = true := by
  by_cases h1 : fp = "a.jpg" ∨ fp = "b.jpg" ∨ fp = "c.jpg"
  · have he : envABC.exifTag fp = some "2023:01:01 12:00:00" := by
      show (if fp = "a.jpg" ∨ fp = "b.jpg" ∨ fp = "c.jpg" then some "2023:01:01 12:00:00"
        else if fp = "u.jpg" then some "2024:05:06 07:08:09" else none) = _
      rw [if_pos h1]
    rw [resolveFile_exif_some envABC fp "2023:01:01 12:00:00" (by decide) (by decide) he] at h
    have ht := congrArg Prod.fst (Except.ok.inj h)
    have ht2 : t = "20230101-120000" := by
      have := Option.some.inj ht
      rw [← this]
      rfl
    rw [ht2]
    decide
  · by_cases h2 : fp = "u.jpg"
    · have he : envABC.exifTag fp = some "2024:05:06 07:08:09" := by
        show (if fp = "a.jpg" ∨ fp = "b.jpg" ∨ fp = "c.jpg" then some "2023:01:01 12:00:00"
          else if fp = "u.jpg" then some "2024:05:06 07:08:09" else none) = _
        rw [if_neg h1, if_pos h2]
      rw [resolveFile_exif_some envABC fp "2024:05:06 07:08:09" (by decide) (by decide) he] at h
      have ht := congrArg Prod.fst (Except.ok.inj h)
      have ht2 : t = "20240506-070809" := by
        have := Option.some.inj ht
        rw [← this]
        rfl
      rw [ht2]
      decide
    · have he : envABC.exifTag fp = none := by
        show (if fp = "a.jpg" ∨ fp = "b.jpg" ∨ fp = "c.jpg" then some "2023:01:01 12:00:00"
          else if fp = "u.jpg" then some "2024:05:06 07:08:09" else none) = _
        rw [if_neg h1, if_neg h2]
      rw [resolveFile_exif_none_json_none envABC fp he (find_json_file_false fp)] at h
      have := congrArg Prod.fst (Except.ok.inj h)
      cases this

/-- File set of the running example, deliberately listed out of order. -/
def filesABC : List String := ["b.jpg", "u.jpg", "c.jpg", "a.jpg"]

/-- Plan the model produces on the running example. -/
def planABC : List PlanEntry :=
  [.moveNoSidecar "a.jpg" "20230101-120000-00",
   .moveNoSidecar "b.jpg" "20230101-120000-01",
   .moveNoSidecar "c.jpg" "20230101-120000-02",
   .moveNoSidecar "u.jpg" "20240506-070809"]

theorem sortedFilesABC : sortedFiles filesABC = ["a.jpg", "b.jpg", "c.jpg", "u.jpg"] := by
  simp +decide [sortedFiles, filesABC, List.mergeSort, List.merge]

theorem process_envABC : process envABC filesABC = .ok planABC := by
  unfold process
  rw [sortedFilesABC]
  rfl

theorem C1_no_collision_witness : "20230101-120000-00" ≠ "20230101-120000-01" :=
  C1_no_collision envABC filesABC planABC process_envABC
    (fun fp t jp h => envABC_canon fp t jp h) 0 1 (by omega)
    "20230101-120000-00" "20230101-120000-01" rfl rfl

/-- C3: a resolved file whose timestamp tally is 1 gets the bare canonical
timestamp as base name; with tally at least 2 it gets the timestamp followed
by a dash and the zero-padded two-digit count of earlier same-timestamp files
in the fixed processing order (counter starts at 00 and increments per
assignment). -/
theorem C3_suffix (env : Env) (files : List String) (rs : List Resolved)
    (h1 : pass1 env (sortedFiles files) = .ok rs)
    (i : Nat) (fp t : String) (jp : Option String)
    (hr : rs[i]? = some (fp, some t, jp)) :
    process env files = .ok (pass2 (tally rs) rs (fun _ => 0)) ∧
    (pass2 (tally rs) rs (fun _ => 0))[i]? = some (mkResolvedEntry fp
      (if tally rs t = 1 then t
       else t ++ ("-" ++ pad2 (occIn (rs.take i) t))) jp) := by
  constructor
  · unfold process
    rw [h1]
  · rw [pass2_getElem, hr]
    have htge : 1 ≤ tally rs t := by
      have hmem : (fp, some t, jp) ∈ rs := List.getElem?_mem hr
      have hmf : (fp, some t, jp) ∈ rs.filter (fun r => r.2.1 == some t) := by
        rw [List.mem_filter]
        exact ⟨hmem, by simp⟩
      have hpos := List.length_pos.mpr (List.ne_nil_of_mem hmf)
      simpa [tally] using hpos
    have hent : entrySpec (tally rs) (fun _ => 0) (rs.take i) (fp, some t, jp) =
        mkResolvedEntry fp
          (t ++ (if tally rs t > 1 then "-" ++ pad2 (0 + occIn (rs.take i) t) else "")) jp := rfl
    rw [Option.map_some', hent]
    have hbase : (t ++ (if tally rs t > 1 then "-" ++ pad2 (0 + occIn (rs.take i) t) else ""))
        = (if tally rs t = 1 then t else t ++ ("-" ++ pad2 (occIn (rs.take i) t))) := by
      by_cases hone : tally rs t = 1
      · rw [if_neg (by omega : ¬ tally rs t > 1), if_pos hone]
        exact String.ext (by simp [String.data_append])
      · rw [if_pos (by omega : tally rs t > 1), if_neg hone, Nat.zero_add]
    rw [hbase]

/-- Resolved records of the running example, in processing order. -/
def rsABC : List Resolved :=
  [("a.jpg", some "20230101-120000", none),
   ("b.jpg", some "20230101-120000", none),
   ("c.jpg", some "20230101-120000", none),
   ("u.jpg", some "20240506-070809", none)]

theorem pass1_envABC : pass1 envABC (sortedFiles filesABC) = .ok rsABC := by
  rw [sortedFilesABC]
  rfl

theorem C3_suffix_witness :
    (process envABC filesABC = .ok planABC ∧
      planABC[0]? = some (PlanEntry.moveNoSidecar "a.jpg" "20230101-120000-00")) ∧
    planABC[1]? = some (PlanEntry.moveNoSidecar "b.jpg" "20230101-120000-01") ∧
    planABC[2]? = some (PlanEntry.moveNoSidecar "c.jpg" "20230101-120000-02") ∧
    planABC[3]? = some (PlanEntry.moveNoSidecar "u.jpg" "20240506-070809") := by
  have h0 := C3_suffix envABC filesABC rsABC pass1_envABC 0 "a.jpg" "20230101-120000" none rfl
  have h1 := C3_suffix envABC filesABC rsABC pass1_envABC 1 "b.jpg" "20230101-120000" none rfl
  have h2 := C3_suffix envABC filesABC rsABC pass1_envABC 2 "c.jpg" "20230101-120000" none rfl
  have h3 := C3_suffix envABC filesABC rsABC pass1_envABC 3 "u.jpg" "20240506-070809" none rfl
  exact ⟨⟨h0.1, h0.2⟩, h1.2, h2.2, h3.2⟩

theorem sortedFiles_sorted (files : List String) :
    (sortedFiles files).Sorted (fun a b : String => a ≤ b) := by
  have htrans : ∀ a b c : String, (decide (a ≤ b)) = true → (decide (b ≤ c)) = true →
      (decide (a ≤ c)) = true := by
    intro a b c hab hbc
    simp only [decide_eq_true_eq] at *
    exact le_trans hab hbc
  have htotal : ∀ a b : String, ((decide (a ≤ b)) || (decide (b ≤ a))) = true := by
    intro a b
    simp only [Bool.or_eq_true, decide_eq_true_eq]
    exact le_total a b
  have h := @List.sorted_mergeSort String (fun a b => decide (a ≤ b)) htrans htotal files
  unfold sortedFiles
  exact h.imp (fun hab => by simpa using hab)

theorem sortedFiles_perm_eq (files1 files2 : List String) (h : files1.Perm files2) :
    sortedFiles files1 = sortedFiles files2 := by
  have p : (sortedFiles files1).Perm (sortedFiles files2) :=
    ((List.mergeSort_perm files1 _).trans h).trans (List.mergeSort_perm files2 _).symm
  exact List.eq_of_perm_of_sorted p (sortedFiles_sorted files1) (sortedFiles_sorted files2)

/-- C4: the emitted plan is a deterministic function of the input file set
alone — any two enumeration orders of the same file set give the same plan
entries and byte-identical script output. -/
theorem C4_determinism (env : Env) (files1 files2 : List String)
    (h : files1.Perm files2) :
    process env files1 = process env files2 ∧
    scriptOutput (process env files1) = scriptOutput (process env files2) := by
  have hp : process env files1 = process env files2 := by
    unfold process
    rw [sortedFiles_perm_eq files1 files2 h]
  exact ⟨hp, by rw [hp]⟩

theorem C4_determinism_witness :
    process envTwo ["b.jpg", "a.jpg"] = process envTwo ["a.jpg", "b.jpg"] ∧
    scriptOutput (process envTwo ["b.jpg", "a.jpg"]) =
      scriptOutput (process envTwo ["a.jpg", "b.jpg"]) :=
  C4_determinism envTwo ["b.jpg", "a.jpg"] ["a.jpg", "b.jpg"] (by decide)

/-- C5: when the injected primary-tag reader returns a usable value (truthy,
and still truthy after formatting), the resolved timestamp is the formatted
primary value — whatever the sidecar contains — and the resolution result is
unchanged under arbitrary replacement of every sidecar's content, so the
sidecar timestamp is only consulted when the primary tag is absent or
unusable. -/
theorem C5_precedence (exifTag : String → Option String) (fsExists : String → Bool)
    (jc jc' : String → Except Unit Json) (fp s : String)
    (h1 : exifTag fp = some s) (h2 : ¬ s = "") (h3 : ¬ format_exif_datetime s = "") :
    resolveFile ⟨exifTag, fsExists, jc⟩ fp =
      .ok (some (format_exif_datetime s), find_json_file fsExists fp) ∧
    resolveFile ⟨exifTag, fsExists, jc⟩ fp = resolveFile ⟨exifTag, fsExists, jc'⟩ fp := by
  constructor
  · exact resolveFile_exif_some ⟨exifTag, fsExists, jc⟩ fp s h2 h3 h1
  · rw [resolveFile_exif_some ⟨exifTag, fsExists, jc⟩ fp s h2 h3 h1,
      resolveFile_exif_some ⟨exifTag, fsExists, jc'⟩ fp s h2 h3 h1]

/-- Environment where `a.jpg` has both a primary tag and a sidecar whose
embedded epoch (2000-01-01) conflicts with the primary value (2023-01-01). -/
def envConflict : Env where
  exifTag := fun fp => if fp = "a.jpg" then some "2023:01:01 12:00:00" else none
  fsExists := fun st => st == "a.jpg.supplemental-metadata.json"
  jsonContent := fun _ => .ok (.obj [("photoTakenTime", .obj [("timestamp", .str "946684800")])])

/-- Same as `envConflict` with every sidecar unreadable. -/
def envConflictAbsent : Env where
  exifTag := fun fp => if fp = "a.jpg" then some "2023:01:01 12:00:00" else none
  fsExists := fun st => st == "a.jpg.supplemental-metadata.json"
  jsonContent := fun _ => .error ()

theorem C5_precedence_witness :
    get_json_datetime (envConflict.jsonContent "a.jpg.supplemental-metadata.json") =
      .ok (some "20000101-000000") ∧
    resolveFile envConflict "a.jpg" =
      .ok (some "20230101-120000", some "a.jpg.supplemental-metadata.json") ∧
    resolveFile envConflict "a.jpg" = resolveFile envConflictAbsent "a.jpg" :=
  ⟨rfl,
    (C5_precedence envConflict.exifTag envConflict.fsExists envConflict.jsonContent
      envConflictAbsent.jsonContent "a.jpg" "2023:01:01 12:00:00" rfl (by decide) (by decide)).1,
    (C5_precedence envConflict.exifTag envConflict.fsExists envConflict.jsonContent
      envConflictAbsent.jsonContent "a.jpg" "2023:01:01 12:00:00" rfl (by decide) (by decide)).2⟩

/-- Specification-side list of probed prefix lengths: the full candidate
length down to the floor of 10 characters (exclusive), longest first. -/
def specProbeLengths (mn : String) : List Nat :=
  ((List.range (mn.data.length + 1)).filter (fun i => decide (10 < i))).reverse

/-- Specification-side locator: probe decreasing-length prefixes of the
candidate (with the relocated numeric suffix and `.json` appended) and return
the first existing one. -/
def specLocate (fsExists : String → Bool) (p : String) : Option String :=
  let mn := (metadataNameNum p).1
  let num := (metadataNameNum p).2
  (((specProbeLengths mn).find? (fun i => fsExists (probeString mn num i))).map
    (fun i => probeString mn num i))

theorem probeFrom_eq_spec (fsExists : String → Bool) (mn : String) (num : Option String) :
    ∀ k, probeFrom fsExists mn num k =
      (((((List.range (k + 1)).filter (fun i => decide (10 < i))).reverse).find?
        (fun i => fsExists (probeString mn num i))).map (fun i => probeString mn num i)) := by
  intro k
  induction k with
  | zero => rfl
  | succ k ih =>
    by_cases hk : k + 1 ≤ 10
    · rw [probeFrom, if_pos hk]
      have hfil : ((List.range (k + 2)).filter (fun i => decide (10 < i))) = [] := by
        rw [List.filter_eq_nil_iff]
        intro i hi
        simp only [List.mem_range] at hi
        simp only [decide_eq_true_eq]
        omega
      rw [hfil]
      rfl
    · rw [probeFrom, if_neg hk]
      have hsingle : ([k + 1].filter (fun i => decide (10 < i))) = [k + 1] := by
        simp only [List.filter_cons, List.filter_nil, decide_eq_true_eq]
        rw [if_pos (by omega : 10 < k + 1)]
      have hfil : ((List.range (k + 2)).filter (fun i => decide (10 < i))).reverse =
          (k + 1) :: ((List.range (k + 1)).filter (fun i => decide (10 < i))).reverse := by
        rw [List.range_succ, List.filter_append, List.reverse_append, hsingle]
        rfl
      rw [hfil]
      cases hq : fsExists (probeString mn num (k + 1)) with
      | true => simp [List.find?_cons, hq]
      | false => simp [List.find?_cons, hq, ih]

/-- C6: the sidecar locator relocates a parenthesized numeric suffix after
the `.supplemental-metadata` marker and probes decreasing-length prefixes of
the candidate (appending the suffix and `.json`) from the full length down to
the floor of 10 characters, returning the longest existing probe or absent;
in particular `IMG(2).jpg` locates `IMG.jpg.supplemental-metadata(2).json`
and not `IMG(2).jpg.supplemental-metadata.json`. -/
theorem C6_locator :
    (∀ (fsExists : String → Bool) (p : String),
      find_json_file fsExists p = specLocate fsExists p) ∧
    find_json_file (fun st => st == "IMG.jpg.supplemental-metadata(2).json") "IMG(2).jpg" =
      some "IMG.jpg.supplemental-metadata(2).json" ∧
    find_json_file (fun st => st == "IMG(2).jpg.supplemental-metadata.json") "IMG(2).jpg" =
      none := by
  refine ⟨?_, by rfl, by rfl⟩
  intro fsExists p
  unfold find_json_file specLocate specProbeLengths
  exact probeFrom_eq_spec fsExists (metadataNameNum p).1 (metadataNameNum p).2
    ((metadataNameNum p).1.data.length)

/-- C7 counterexample: the primary-tag string parser does not return "no
value" on malformed input — it returns the transformed garbage string, so a
caller can distinguish a malformed source from an absent one. -/
theorem C7_parsers_counterexample :
    format_exif_datetimeOpt (some "garbage") = some "garbage" ∧
    format_exif_datetimeOpt (some "garbage") ≠ none := by
  exact ⟨rfl, by decide⟩

/-- C7 amended: neither parser raises; the primary-tag formatter returns no
value exactly on falsy input (absent or empty) and otherwise transforms
without validating, while the sidecar epoch parser returns no value (without
raising) on undecodable JSON, on a missing `photoTakenTime` field, and on a
non-numeric string timestamp. -/
theorem C7_parsers_amended :
    (∀ o : Option String, format_exif_datetimeOpt o = none ↔ (o = none ∨ o = some "")) ∧
    get_json_datetime (.error ()) = .ok none ∧
    (∀ l : List (String × Json), l.lookup "photoTakenTime" = none →
      get_json_datetime (.ok (.obj l)) = .ok none) ∧
    (∀ s : String, parsePyInt s = none →
      get_json_datetime (.ok (.obj [("photoTakenTime",
        .obj [("timestamp", .str s)])])) = .ok none) := by
  refine ⟨?_, rfl, ?_, ?_⟩
  · intro o
    match o with
    | none => simp [format_exif_datetimeOpt]
    | some s =>
      by_cases hs : s = ""
      · subst hs; simp [format_exif_datetimeOpt]
      · simp [format_exif_datetimeOpt, hs]
  · intro l hl
    have hbody : get_json_datetime_body (.ok (.obj l)) = .ok none := by
      simp [get_json_datetime_body, pyGetDefault, pyGetOpt, hl, List.lookup]
    unfold get_json_datetime
    rw [hbody]
  · intro s hparse
    by_cases hs : s = ""
    · subst hs; rfl
    · have htr : pyTruthy (.str s) = true := by simp [pyTruthy, hs]
      have hbody : get_json_datetime_body (.ok (.obj [("photoTakenTime",
          .obj [("timestamp", .str s)])])) = .error PyErr.valueError := by
        simp [get_json_datetime_body, pyGetDefault, pyGetOpt, List.lookup, htr, pyInt, hparse]
      unfold get_json_datetime
      rw [hbody]
      rfl

theorem C7_parsers_amended_witness :
    format_exif_datetimeOpt none = none ∧
    get_json_datetime (.ok (.obj [])) = .ok none ∧
    get_json_datetime (.ok (.obj [("photoTakenTime",
      .obj [("timestamp", .str "abc")])])) = .ok none :=
  ⟨(C7_parsers_amended.1 none).mpr (Or.inl rfl),
    C7_parsers_amended.2.2.1 [] rfl,
    C7_parsers_amended.2.2.2 "abc" rfl⟩

theorem matchAfterMarker_name (rest : List Char) (n v : String)
    (h : matchAfterMarker rest = some (n, v)) : n.data.all isC1 = true := by
  simp only [matchAfterMarker] at h
  split at h
  · cases h
  · split at h
    · cases h
    · split at h
      · cases h
      · split at h
        · split at h
          · cases h
          · have hn := (Prod.mk.injEq _ _ _ _).mp (Option.some.inj h) |>.1
            subst hn
            rw [List.all_eq_true]
            intro c hc
            exact List.mem_takeWhile_imp hc
        · cases h

theorem tryConsume_name (rest : List Char) :
    ∀ (k : Nat) (n v : String), tryConsume rest k = some (n, v) → n.data.all isC1 = true := by
  intro k
  induction k with
  | zero => intro n v h; cases h
  | succ k ih =>
    intro n v h
    unfold tryConsume at h
    cases hif : (if rest[k + 1]? == some '\\' then matchAfterMarker (rest.drop (k + 2))
        else none) with
    | some v' =>
      rw [hif] at h
      have hv : v' = (n, v) := Option.some.inj h
      subst hv
      by_cases hc : (rest[k + 1]? == some '\\') = true
      · rw [if_pos hc] at hif
        exact matchAfterMarker_name _ n v hif
      · rw [if_neg hc] at hif
        cases hif
    | none =>
      rw [hif] at h
      exact ih n v h

theorem lineMatch_name (l : List Char) (n v : String)
    (h : lineMatch l = some (n, v)) : n.data.all isC1 = true := by
  unfold lineMatch at h
  split at h
  · exact tryConsume_name _ _ n v h
  · cases h

theorem foundTags_name (lines : List String) (p : String × String)
    (hp : p ∈ foundTags lines) : p.1.data.all isC1 = true := by
  unfold foundTags at hp
  rw [List.mem_filterMap] at hp
  obtain ⟨l, _, hf⟩ := hp
  split at hf
  · rename_i nv heq
    have hf' : (if List.isPrefixOf videoDateLiteral.data (stripStr nv.2).data = true
        then some (nv.1, stripStr nv.2) else none) = some p := hf
    split at hf'
    · have h1 := (Prod.mk.injEq _ _ _ _).mp (Option.some.inj hf') |>.1
      rw [← h1]
      exact lineMatch_name l.data nv.1 nv.2 heq
    · cases hf'
  · cases hf

/-- C8 (code bug): the video primary-tag reader can never produce a value.
The doubled backslashes in its raw-string regexes require a literal backslash
at the start of each line and allow tag names only over the characters
backslash, `w`, `d`, underscore, so no preference tag is ever collected and
the function is constantly `None` — also on genuine exiftool output. -/
theorem C8_video_reader_constant_none :
    (∀ output : Option (List String), get_video_exif_datetime output = none) ∧
    get_video_exif_datetime (some
      ["[QuickTime]     DateTimeOriginal                : 2023:01:01 12:00:00",
       "[QuickTime]     CreateDate                      : 2023:02:02 10:00:00"]) = none := by
  have hmain : ∀ output : Option (List String), get_video_exif_datetime output = none := by
    intro output
    cases output with
    | none => rfl
    | some lines =>
      simp only [get_video_exif_datetime]
      have hlk : ∀ tag : String, tag.data.all isC1 = false →
          lookupTag (foundTags lines) tag = none := by
        intro tag htag
        unfold lookupTag
        rw [List.find?_eq_none.mpr]
        · rfl
        · intro p hp hbeq
          have h1 := foundTags_name lines p (List.mem_reverse.mp hp)
          have h2 : p.1 = tag := by simpa using hbeq
          rw [h2, htag] at h1
          cases h1
      rw [hlk "DateTimeOriginal" (by decide), hlk "CreateDate" (by decide),
        hlk "MediaCreateDate" (by decide), hlk "TrackCreateDate" (by decide)]
  exact ⟨hmain, hmain _⟩

/-- Environment of the C9 failing input: no primary tags, every media file
has a sidecar whose `photoTakenTime` field is a bare number (wrong shape). -/
def envBadSidecar : Env where
  exifTag := fun _ => none
  fsExists := fun st => st == "a.jpg.supplemental-metadata.json"
  jsonContent := fun _ => .ok (.obj [("photoTakenTime", .num 5)])

/-- C9 (code bug): a sidecar whose `photoTakenTime` field has the wrong shape
raises an uncaught `AttributeError` inside `get_json_datetime`, and the
planning run aborts with that error before emitting anything, instead of
downgrading the failure to "absent" and completing the batch. -/
theorem C9_sidecar_wrong_shape_aborts :
    get_json_datetime (.ok (.obj [("photoTakenTime", .num 5)])) =
      .error PyErr.attributeError ∧
    process envBadSidecar ["a.jpg", "b.jpg"] = .error PyErr.attributeError ∧
    scriptOutput (process envBadSidecar ["a.jpg", "b.jpg"]) = "" := by
  have hs : sortedFiles ["a.jpg", "b.jpg"] = ["a.jpg", "b.jpg"] := by
    simp +decide [sortedFiles, List.mergeSort, List.merge]
  have hp : process envBadSidecar ["a.jpg", "b.jpg"] = .error PyErr.attributeError := by
    unfold process
    rw [hs]
    rfl
  exact ⟨rfl, hp, by rw [hp]; rfl⟩

/-- C10: whenever the locator finds a sidecar for a file whose timestamp
resolved (also when the timestamp's provenance is the primary tag), the plan
entry is the sidecar-carrying `move` variant, and its emission contains the
parallel sidecar rename to the same base name and suffix with the `.json`
extension. -/
theorem C10_sidecar_rename (env : Env) (files : List String) (rs : List Resolved)
    (h1 : pass1 env (sortedFiles files) = .ok rs)
    (i : Nat) (fp t jp : String)
    (hr : rs[i]? = some (fp, some t, some jp)) :
    process env files = .ok (pass2 (tally rs) rs (fun _ => 0)) ∧
    (pass2 (tally rs) rs (fun _ => 0))[i]? = some (PlanEntry.move fp
      (t ++ (if tally rs t > 1 then "-" ++ pad2 (occIn (rs.take i) t) else "")) jp) ∧
    emitEntry (PlanEntry.move fp
      (t ++ (if tally rs t > 1 then "-" ++ pad2 (occIn (rs.take i) t) else "")) jp) =
      ["mv \"" ++ fp ++ "\" \"" ++ join3 "done" (dirname fp)
          ((t ++ (if tally rs t > 1 then "-" ++ pad2 (occIn (rs.take i) t) else ""))
            ++ splitextExt fp) ++ "\"",
       "mv \"" ++ jp ++ "\" \"" ++ join3 "done" (dirname fp)
          ((t ++ (if tally rs t > 1 then "-" ++ pad2 (occIn (rs.take i) t) else ""))
            ++ ".json") ++ "\""] := by
  refine ⟨by unfold process; rw [h1], ?_, rfl⟩
  rw [pass2_getElem, hr]
  simp only [Option.map_some']
  rw [show entrySpec (tally rs) (fun _ => 0) (rs.take i) (fp, some t, some jp) =
    PlanEntry.move fp
      (t ++ (if tally rs t > 1 then "-" ++ pad2 (0 + occIn (rs.take i) t) else "")) jp from rfl]
  rw [Nat.zero_add]

/-- Resolved record of `envConflict` on its single file: the timestamp came
from the primary tag while the locator still found the sidecar. -/
def rsConf : List Resolved :=
  [("a.jpg", some "20230101-120000", some "a.jpg.supplemental-metadata.json")]

theorem pass1_envConflict : pass1 envConflict (sortedFiles ["a.jpg"]) = .ok rsConf := by
  have hs : sortedFiles ["a.jpg"] = ["a.jpg"] := by
    simp +decide [sortedFiles, List.mergeSort]
  rw [hs]
  rfl

theorem C10_sidecar_rename_witness :
    process envConflict ["a.jpg"] = .ok (pass2 (tally rsConf) rsConf (fun _ => 0)) ∧
    (pass2 (tally rsConf) rsConf (fun _ => 0))[0]? = some (PlanEntry.move "a.jpg"
      "20230101-120000" "a.jpg.supplemental-metadata.json") ∧
    emitEntry (PlanEntry.move "a.jpg" "20230101-120000" "a.jpg.supplemental-metadata.json") =
      ["mv \"a.jpg\" \"done/20230101-120000.jpg\"",
       "mv \"a.jpg.supplemental-metadata.json\" \"done/20230101-120000.json\""] := by
  have h := C10_sidecar_rename envConflict ["a.jpg"] rsConf pass1_envConflict 0
    "a.jpg" "20230101-120000" "a.jpg.supplemental-metadata.json" rfl
  exact ⟨h.1, by rw [h.2.1]; decide, by decide⟩

/-- C2 counterexample: an input file set of two MediaFiles on which the run
aborts during pass 1 (uncaught `AttributeError` from a wrong-shape sidecar),
so no plan list is produced at all and nothing is emitted — the number of
plan entries (zero) does not equal the number of input MediaFiles (two),
refuting the unconditional totality claim. -/
theorem C2_totality_counterexample :
    (["a.jpg", "b.jpg"] : List String).length = 2 ∧
    process envBadSidecar ["a.jpg", "b.jpg"] = .error PyErr.attributeError ∧
    scriptOutput (process envBadSidecar ["a.jpg", "b.jpg"]) = "" := by
  have hs : sortedFiles ["a.jpg", "b.jpg"] = ["a.jpg", "b.jpg"] := by
    simp +decide [sortedFiles, List.mergeSort, List.merge]
  have hp : process envBadSidecar ["a.jpg", "b.jpg"] = .error PyErr.attributeError := by
    unfold process
    rw [hs]
    rfl
  exact ⟨rfl, hp, by rw [hp]; rfl⟩

end ImageCompare
